import Mathlib

/-!
Verification of the Knowledge Retrieval and Response-Decision Engine of the
Telegram Namibia bot (`main.py`, classes `EnhancedKnowledgeBase` and
`EnhancedNamibiaBot`).

The Python source is shallowly embedded:

* strings are Lean `String`; Python `needle in hay` is `str_contains`,
  `str.split()` (no argument) is `py_words`, `str.strip()` is `String.trim`,
  `str.lower()` is `String.toLower`, `str.replace` is `String.replace`,
  splitting on a comma is `py_split`;
* numeric scores (Python floats) are modelled as rationals `ℚ`;
* the SQLite-backed `kb_db.search` (class `KnowledgeBase`, file
  `knowledge_base.py`) and the external library function
  `rapidfuzz.fuzz.partial_ratio` are treated as the external collaborators
  they are: they enter the embedding as function parameters (`dbSearch`,
  `pr`), so every theorem below holds for every corpus / every behaviour of
  the fuzzy matcher (where a bound such as `partial_ratio ∈ [0,100]` is
  needed it is an explicit hypothesis);
* the two `random.random()` draws made by `decide_response` are injected as
  explicit rational parameters `coin` (the 50% conversation-starter coin)
  and `r` (the final response gate), both in `[0,1)`;
* the stable Python `list.sort(key=..., reverse=True)` is modelled by a
  stable descending insertion sort `sort_desc`.
-/

unseal Rat.mul Rat.inv Rat.add Rat.sub Rat.ofScientific

/-- Character-list prefix test (`needle` is a prefix of `hay`). -/
def begins_with : List Char → List Char → Bool
  | [], _ => true
  | _ :: _, [] => false
  | a :: as, b :: bs => a == b && begins_with as bs

/-- Character-list substring test, the semantics of Python `needle in hay`
(an empty needle is contained in everything, as in Python). -/
def chars_contains : List Char → List Char → Bool
  | [], needle => needle.isEmpty
  | hay@(_ :: t), needle => begins_with needle hay || chars_contains t needle

/-- Python `needle in hay` on strings. -/
def str_contains (hay needle : String) : Bool :=
  chars_contains hay.toList needle.toList

/-- Python `s.lower()` (the inputs considered here are ASCII, where
`Char.toLower` agrees with Python). -/
def py_lower (s : String) : String :=
  ⟨s.data.map Char.toLower⟩

/-- Python `s.strip()`: remove leading and trailing whitespace. -/
def py_trim (s : String) : String :=
  ⟨(((s.data.dropWhile Char.isWhitespace).reverse).dropWhile Char.isWhitespace).reverse⟩

/-- Split a character list at every separator character, keeping empty
pieces (the semantics of splitting on a single-character separator). -/
def split_chars (p : Char → Bool) : List Char → List (List Char)
  | [] => [[]]
  | c :: cs =>
    match split_chars p cs with
    | [] => [[]]
    | w :: ws => if p c then [] :: w :: ws else (c :: w) :: ws

/-- Split a string at every character satisfying `p`, keeping empties. -/
def py_split (s : String) (p : Char → Bool) : List String :=
  (split_chars p s.data).map (fun l => ⟨l⟩)

/-- Python `s.split()` with no argument: split on whitespace runs,
discarding empty pieces. -/
def py_words (s : String) : List String :=
  (py_split s Char.isWhitespace).filter (fun w => w ≠ "")

/-- Python `re.findall` with the word pattern: the maximal runs of word characters
(ASCII letters, digits and underscore; the inputs considered here are
ASCII). -/
def word_tokens (s : String) : List String :=
  (py_split s (fun c => !(c.isAlphanum || c == '_'))).filter (fun w => w ≠ "")

/-- Python `s.startswith(pre)`. -/
def py_startswith (s pre : String) : Bool :=
  begins_with pre.data s.data

/-- Fuel-bounded left-to-right non-overlapping replacement on character
lists; with fuel `≥` the list length it implements Python `str.replace`
for a non-empty pattern (the patterns used in this code are non-empty). -/
def replace_fuel (pat rep : List Char) : Nat → List Char → List Char
  | 0, l => l
  | _ + 1, [] => []
  | fuel + 1, c :: cs =>
    if !pat.isEmpty && begins_with pat (c :: cs) then
      rep ++ replace_fuel pat rep fuel ((c :: cs).drop pat.length)
    else c :: replace_fuel pat rep fuel cs

/-- Python `s.replace(pat, rep)` (for the non-empty patterns used here). -/
def py_replace (s pat rep : String) : String :=
  ⟨replace_fuel pat.data rep.data s.data.length s.data⟩

/-- Joining with a separator, on character lists. -/
def intercalate_chars (sep : List Char) : List (List Char) → List Char
  | [] => []
  | [w] => w
  | w :: ws => w ++ sep ++ intercalate_chars sep ws

/-- Python `sep.join(ws)`. -/
def py_join (sep : String) (ws : List String) : String :=
  ⟨intercalate_chars sep.data (ws.map (fun w => w.data))⟩

/-- One step of the stable descending insertion sort: insert `x` into the
already sorted list, after every element whose key is `≥ key x` (so that
elements with equal keys keep their original relative order, as the stable
Python `sort` does). -/
def insert_desc {α : Type} (key : α → ℚ) (x : α) : List α → List α
  | [] => [x]
  | y :: ys => if key y < key x then x :: y :: ys else y :: insert_desc key x ys

/-- Stable descending sort by a rational key: the model of Python
`list.sort(key=..., reverse=True)`. -/
def sort_desc {α : Type} (key : α → ℚ) (l : List α) : List α :=
  l.foldl (fun acc x => insert_desc key x acc) []

/-- Non-increasing-by-key order. -/
def SortedDesc {α : Type} (key : α → ℚ) (l : List α) : Prop :=
  l.Pairwise (fun a b => key b ≤ key a)

-- =========================================================
-- Data model: knowledge rows and search results
-- =========================================================

/-- A row of the `knowledge` table as returned by `kb_db.search`
(`knowledge_base.py`): columns `category`, `topic`, `content`, `keywords`. -/
structure Row where
  category : String
  topic : String
  content : String
  keywords : String

deriving DecidableEq, Repr

/-- One element of the list built by
`EnhancedKnowledgeBase.intelligent_search` (`main.py` lines 183-276): the
nested `item` dict is flattened into the four leading fields. -/
structure SearchResult where
  category : String
  question : String
  answer : String
  keywords : List String
  score : ℚ
  matched_query : String
  is_personal : Bool

deriving DecidableEq, Repr

-- =========================================================
-- EnhancedKnowledgeBase.setup_synonyms (main.py lines 116-140)
-- =========================================================

/-- The synonym dictionary of `setup_synonyms`, in insertion order (Python
dicts iterate in insertion order). -/
def synonyms : List (String × List String) :=
  [ ("namibia", ["namibian", "namibias", "namib", "republic of namibia"]),
    ("windhoek", ["capital", "city", "main city", "capital city"]),
    ("etosha", ["etosha park", "national park", "wildlife park", "game reserve", "etosha pan"]),
    ("sossusvlei", ["sand dunes", "namib desert", "dunes", "red dunes", "dead vlei", "deadvlei"]),
    ("swakopmund", ["coastal town", "german town", "beach town", "coast", "swakop"]),
    ("fish river", ["canyon", "fish river canyon", "hiking canyon", "canyon hike"]),
    ("himba", ["red people", "ochre people", "tribal people", "indigenous", "himba tribe"]),
    ("herero", ["victorian dress", "traditional dress", "herero women", "herero tribe"]),
    ("visa", ["entry requirements", "travel documents", "permit", "visa requirements"]),
    ("currency", ["money", "cash", "nad", "namibian dollar", "rands", "exchange"]),
    ("weather", ["climate", "temperature", "season", "rain", "sunny", "dry"]),
    ("wildlife", ["animals", "safari", "game", "fauna", "creatures", "mammals"]),
    ("history", ["past", "historical", "heritage", "colonial", "independence"]),
    ("culture", ["people", "traditions", "customs", "ethnic", "tribal", "society"]),
    ("travel", ["tourism", "visit", "vacation", "holiday", "trip", "journey"]),
    ("desert", ["arid", "dry", "sand", "namib", "kalahari"]),
    ("elephant", ["elephants", "pachyderm", "african elephant"]),
    ("lion", ["lions", "big cat", "predator", "king of jungle"]),
    ("cheetah", ["cheetahs", "fastest animal", "acinonyx jubatus"]),
    ("eva", ["your name", "who are you", "what are you called"]),
    ("geises", ["last name", "surname", "family name"]) ]

-- =========================================================
-- EnhancedKnowledgeBase.expand_query (main.py lines 157-181)
-- =========================================================

/-- `expand_query`: start from the lowercased query; when a personal term
occurs, extend with three fixed personal phrases; then for every synonym
table entry whose key occurs in the query append each substitution not yet
present; finally append every word-prefix of a multi-word query. -/
def expand_query (query : String) : List String :=
  let query_lower := py_lower query
  let expanded := [query_lower]
  let expanded :=
    if ["your name", "who are you", "what are you called"].any
        (fun t => str_contains query_lower t) then
      expanded ++ ["eva geises", "my name is eva", "i am eva geises"]
    else expanded
  let expanded := synonyms.foldl (fun acc ws =>
    if str_contains query_lower ws.1 then
      ws.2.foldl (fun acc synonym =>
        let expanded_query := py_replace query_lower ws.1 synonym
        if acc.contains expanded_query then acc else acc ++ [expanded_query]) acc
    else acc) expanded
  let words := py_words query_lower
  if words.length > 1 then
    (List.range words.length).foldl (fun acc i =>
      let p := py_join " " (words.take (i + 1))
      if acc.contains p then acc else acc ++ [p]) expanded
  else expanded

-- =========================================================
-- EnhancedKnowledgeBase.check_personal_questions (main.py lines 278-304)
-- =========================================================

/-- The personal-identity response of `check_personal_questions` (the
response of the first pattern, `.*(your name|who are you|what are you
called).*`). -/
def personal_identity_response : String :=
  "🇳🇦 I\x27m **Eva Geises**, your Namibia Group Supervisor! I\x27m here to help manage, inform, and supervise this group with accurate information about Namibia."

/-- The canned responses of `check_personal_questions`, keyed by the
alternation tokens of each regex `.*(tok|...|tok).*`.  Since `re.match`
anchored at the start with leading and trailing `.*` succeeds exactly when
one alternation token occurs as a substring (for the single-line,
already-lowercased queries `intelligent_search` passes in), each pattern is
modelled by its token list. -/
def personal_queries : List (List String × String) :=
  [ (["your name", "who are you", "what are you called"],
     personal_identity_response),
    (["what can you do", "your capabilities", "abilities"],
     "🤖 *As Eva Geises, I can:*\n• Provide detailed information about Namibia\n• Manage group discussions\n• Welcome and supervise new members\n• Answer questions about wildlife, culture, travel\n• Track group activity and engagement\n• Facilitate conversations about Namibia"),
    (["eva geises", "geises"],
     "👤 That\x27s me! **Eva Geises** - your dedicated Namibia expert and group supervisor. I\x27m here to ensure everyone has accurate information and engaging discussions about our beautiful country."),
    (["supervisor", "manage", "monitor"],
     "👁️ As group supervisor, I monitor discussions, provide accurate information, welcome new members, track engagement, and ensure positive conversations about Namibia."),
    (["created you", "who made you", "developer"],
     "👨‍💻 I was developed as an intelligent Namibia assistant to help groups learn and discuss Namibia. My knowledge comes from verified sources and continuous updates."),
    (["hello eva", "hi eva", "hey eva"],
     "👋 Hello! I\x27m Eva Geises, pleased to assist you with all things Namibia! How can I help you today?") ]

/-- `check_personal_questions`: return the response of the first pattern
that matches the query, `None` otherwise. -/
def check_personal_questions (query : String) : Option String :=
  personal_queries.findSome? (fun pr =>
    if pr.1.any (fun t => str_contains query t) then some pr.2 else none)

-- =========================================================
-- EnhancedKnowledgeBase.intelligent_search (main.py lines 183-276)
-- =========================================================

/-- The keyword component score of `intelligent_search`: Jaccard-like
overlap between the word tokens of the query and the cleaned keyword tags,
scaled to 0-100; zero when the keyword list or the overlap is empty. -/
def keyword_score (clean_query : String) (keywords : List String) : ℚ :=
  if keywords ≠ [] then
    let query_words := (word_tokens (py_lower clean_query)).toFinset
    let keyword_set :=
      ((keywords.filter (fun k => py_trim k ≠ "")).map
        (fun k => py_lower (py_trim k))).toFinset
    let common := query_words ∩ keyword_set
    if common ≠ ∅ then
      ((common.card : ℚ) / (max query_words.card keyword_set.card : ℚ)) * 100
    else 0
  else 0

/-- The context weight of `intelligent_search`: 1.3 when the caller passed
a user id present in `self.user_interests` whose interest dict contains the
lowercased result category, else 1.  The per-user interest dict is
abstracted as the membership predicate `interests`. -/
def context_weight (interests : Option (String → Bool)) (category : String) : ℚ :=
  match interests with
  | some user_interest => if user_interest (py_lower category) then 13 / 10 else 1
  | none => 1

/-- Python `result.get('keywords','').split(',') if result.get('keywords') else []`. -/
def row_keywords (r : Row) : List String :=
  if r.keywords = "" then [] else py_split r.keywords (fun c => c == ',')

/-- The loop state of `intelligent_search`: the accumulated result list,
the `seen_content` set (kept as the list of contents in insertion order)
and the value of the Python variable `best_score` after the last processed
iteration (`none` before any direct row was processed). -/
structure SearchState where
  enhanced_results : List SearchResult
  seen_content : List String
  last_best : Option ℚ

deriving Repr

/-- The body of the direct-results `for` loop of `intelligent_search`
(main.py lines 236-264): skip rows whose content was already seen,
otherwise compute the three component scores, weight the maximum by the
context weight, and keep the row iff the weighted score exceeds the
threshold. -/
def process_row (pr : String → String → ℚ) (interests : Option (String → Bool))
    (threshold : ℚ) (clean_query : String) (st : SearchState) (r : Row) :
    SearchState :=
  if st.seen_content.contains r.content then st
  else
    let topic_match := pr clean_query (py_lower r.topic)
    let content_match := pr clean_query (py_lower r.content)
    let keywords := row_keywords r
    let kscore := keyword_score clean_query keywords
    let cw := context_weight interests r.category
    let best_score := max (max topic_match content_match) kscore * cw
    if threshold < best_score then
      { enhanced_results := st.enhanced_results ++
          [{ category := r.category, question := r.topic, answer := r.content,
             keywords := keywords, score := best_score,
             matched_query := clean_query, is_personal := false }],
        seen_content := st.seen_content ++ [r.content],
        last_best := some best_score }
    else { st with last_best := some best_score }

/-- The body of the synonym-expansion fallback loop of `intelligent_search`
(main.py lines 252-272): for each expanded query different from the clean
query, search the corpus again (limit 8) and append every unseen row with
the fixed `score_adjustment` (85 for a proper expansion, 75 otherwise — the
75 arm is unreachable because equal expansions are skipped). -/
def process_expanded (dbSearch : String → ℕ → List Row) (clean_query : String)
    (st : SearchState) (expanded_query : String) : SearchState :=
  if expanded_query ≠ clean_query then
    (dbSearch expanded_query 8).foldl (fun st r =>
      if st.seen_content.contains r.content then st
      else
        let score_adjustment : ℚ := if expanded_query ≠ clean_query then 85 else 75
        { st with
          enhanced_results := st.enhanced_results ++
            [{ category := r.category, question := r.topic, answer := r.content,
               keywords := row_keywords r, score := score_adjustment,
               matched_query := expanded_query, is_personal := false }],
          seen_content := st.seen_content ++ [r.content] }) st
  else st

/-- `EnhancedKnowledgeBase.intelligent_search`.  `dbSearch` abstracts the
SQLite-backed `kb_db.search(query, limit)`; `pr` abstracts
`rapidfuzz.fuzz.partial_ratio`; `interests` abstracts the per-user interest
dict (see `context_weight`).  Empty queries return `[]`; personal questions
short-circuit with a single fixed score-100 result; otherwise the direct
rows are scored and filtered by the threshold (default 60 at the call
sites), the synonym fallback runs when no direct result survived or the
last computed `best_score` was below 80, and the survivors are sorted by
score descending and truncated to the top 7. -/
def intelligent_search (dbSearch : String → ℕ → List Row)
    (pr : String → String → ℚ) (interests : Option (String → Bool))
    (query : String) (threshold : ℚ) : List SearchResult :=
  if py_trim query = "" then []
  else
    let clean_query := py_lower (py_trim query)
    match check_personal_questions clean_query with
    | some personal_response =>
      [{ category := "Personal", question := "About Eva Geises",
         answer := personal_response,
         keywords := ["eva", "geises", "name", "supervisor"], score := 100,
         matched_query := clean_query, is_personal := true }]
    | none =>
      let results := dbSearch clean_query 15
      let st := results.foldl (process_row pr interests threshold clean_query)
        { enhanced_results := [], seen_content := [], last_best := none }
      let fallback :=
        st.enhanced_results.isEmpty ||
          (match st.last_best with
           | some b => decide (b < 80)
           | none => true)
      let st := if fallback then
          (expand_query clean_query).foldl (process_expanded dbSearch clean_query) st
        else st
      (sort_desc (fun x => x.score) st.enhanced_results).take 7

-- =========================================================
-- EnhancedNamibiaBot: response decision engine
-- (main.py lines 362-486)
-- =========================================================

/-- The `engagement_level` computed by `UserProfile.get_user_behavior`
(main.py lines 91-97) from the per-user query count stored in the
database: `high` above 10 queries, `medium` above 3, else `low`. -/
inductive Engagement where
  | high
  | medium
  | low

deriving DecidableEq, Repr

/-- The `engagement_factor` of `decide_response` (main.py line 468). -/
def engagement_factor : Engagement → ℚ
  | .high => 12 / 10
  | .medium => 1
  | .low => 8 / 10

/-- `EnhancedNamibiaBot.is_chat_quiet` (main.py lines 477-486): a chat with
no recorded activity is quiet; otherwise it is quiet iff `now` minus the
recorded timestamp exceeds `minutes`.  Timestamps are rationals counting
minutes. -/
def is_chat_quiet (last_activity : Option ℚ) (now : ℚ) (minutes : ℚ) : Bool :=
  match last_activity with
  | none => true
  | some last_active => decide (minutes < now - last_active)

/-- The `personal identification` terms of `decide_response` (line 422). -/
def personal_terms : List String :=
  ["your name", "who are you", "eva", "geises", "supervisor"]

/-- The `bot_mentions` list of `decide_response` (line 426). -/
def bot_mentions : List String :=
  ["@namibiabot", "@namibia_bot", "namibia bot", "eva", "geises", "hey eva", "hello eva"]

/-- The `greetings` vocabulary of `decide_response` (line 431). -/
def greetings : List String :=
  ["hi", "hello", "hey", "good morning", "good afternoon", "good evening", "moro", "greetings"]

/-- The `question_words` of `decide_response` (line 436). -/
def question_words : List String :=
  ["what", "how", "where", "when", "why", "who", "which", "can you", "tell me", "explain"]

/-- The `kb_topics` list of `decide_response` (line 445). -/
def kb_topics : List String :=
  ["etosha", "sossusvlei", "swakopmund", "windhoek", "himba", "herero", "desert",
   "dunes", "fish river", "cheetah", "elephant", "lion", "visa", "currency", "weather"]

/-- The `travel_words` of `decide_response` (line 450). -/
def travel_words : List String :=
  ["travel", "tour", "visit", "trip", "vacation", "holiday", "safari",
   "destination", "tourist", "flight", "hotel"]

/-- The `supervision_triggers` of `decide_response` (line 455). -/
def supervision_triggers : List String :=
  ["help me", "i need", "can someone", "does anyone know", "looking for", "searching for"]

/-- The `response_types` candidate list built by `decide_response`
(main.py lines 414-459), in source order.  `coin` is the `random.random()`
draw of line 458 gating the conversation starter at 50%. -/
def response_types (message : String) (supervision_mode : Bool)
    (last_activity : Option ℚ) (now : ℚ) (coin : ℚ) : List (String × ℚ) :=
  (if personal_terms.any (fun term => str_contains message term) then
    [("personal_id", 100)] else []) ++
  (if bot_mentions.any (fun mention => str_contains message mention) then
    [("direct_mention", 95)] else []) ++
  (if greetings.any (fun greeting => (py_words (py_lower message)).contains greeting) then
    [("greeting", 75)] else []) ++
  (if str_contains message "?" ||
      question_words.any (fun word => py_startswith (py_lower message) word) then
    [("question", 85)] else []) ++
  (if str_contains (py_lower message) "namibia" ||
      str_contains (py_lower message) "namibian" then
    [("namibia_mention", 70)] else []) ++
  (if kb_topics.any (fun topic => str_contains (py_lower message) topic) then
    [("specific_topic", 80)] else []) ++
  (if travel_words.any (fun word => str_contains (py_lower message) word) then
    [("travel", 65)] else []) ++
  (if supervision_triggers.any (fun trigger => str_contains (py_lower message) trigger) then
    [("supervision", 90)] else []) ++
  (if supervision_mode && is_chat_quiet last_activity now 30 && decide (coin < 1 / 2) then
    [("conversation_starter", 60)] else [])

/-- `EnhancedNamibiaBot.decide_response` (main.py lines 414-475).  The
message arrives lowercased and stripped (see `analyze_message`).  The
candidate list is sorted by weight descending (stable Python sort), the
weight of the top candidate is scaled by the engagement factor, and the bot
responds with the top category iff the weight is at least 40 and the
`random.random()` draw `r` (line 472) is below the adjusted probability.
Returns the chosen category, or `none` for no response. -/
def decide_response (message : String) (engagement : Engagement)
    (last_activity : Option ℚ) (now : ℚ) (supervision_mode : Bool)
    (coin r : ℚ) : Option String :=
  match sort_desc (fun x => x.2) (response_types message supervision_mode last_activity now coin) with
  | [] => none
  | top_response :: _ =>
    let adjusted_probability := top_response.2 / 100 * engagement_factor engagement
    if 40 ≤ top_response.2 ∧ r < adjusted_probability then some top_response.1
    else none

/-- `EnhancedNamibiaBot.analyze_message` (main.py lines 376-387): lowercase
and strip the message, record `last_activity[chat] = now`, then call
`decide_response`.  Returns the decision together with the updated activity
timestamp for the chat.  The incoming `last_activity` value is the state
recorded before this message; it is overwritten before `decide_response`
reads it, which is why it does not influence the result. -/
def analyze_message (message : String) (engagement : Engagement)
    (last_activity : Option ℚ) (now : ℚ) (supervision_mode : Bool)
    (coin r : ℚ) : Option String × Option ℚ :=
  let message_lower := py_trim (py_lower message)
  let updated_activity : Option ℚ := some now
  (decide_response message_lower engagement updated_activity now supervision_mode coin r,
   updated_activity)

/-- The candidate set examined during `analyze_message` for one incoming
message: `response_types` evaluated on the state as updated by
`analyze_message` (which records the activity of the chat at `now` before
deciding). -/
def analyze_candidates (message : String) (supervision_mode : Bool)
    (last_activity : Option ℚ) (now : ℚ) (coin : ℚ) : List (String × ℚ) :=
  let message_lower := py_trim (py_lower message)
  let updated_activity : Option ℚ := some now
  response_types message_lower supervision_mode updated_activity now coin

/-- The state invariant tying every accumulated result to the path that
produced it: a direct result carries a score above the threshold and the
clean query as `matched_query`; a synonym-fallback result carries the fixed
score 85 and a `matched_query` different from the clean query. -/
def ResultOk (threshold : ℚ) (clean_query : String) (x : SearchResult) : Prop :=
  (threshold < x.score ∧ x.matched_query = clean_query) ∨
    (x.score = 85 ∧ x.matched_query ≠ clean_query)

/-- The dedup invariant of the `intelligent_search` loops: the accumulated
results have pairwise distinct `answer`s (entry contents), and every
accumulated content is recorded in `seen_content`. -/
def SeenInv (st : SearchState) : Prop :=
  (st.enhanced_results.map (fun x => x.answer)).Nodup ∧
    ∀ x ∈ st.enhanced_results, x.answer ∈ st.seen_content

/-- The score-range invariant: every accumulated score is in [0, 130]. -/
def ScoreInv (st : SearchState) : Prop :=
  ∀ x ∈ st.enhanced_results, 0 ≤ x.score ∧ x.score ≤ 130

-- =========================================================
-- Concrete instances used by witnesses and counterexamples
-- =========================================================

/-- A corpus row shaped like the Scenario A entry of the spec. -/
def row_capital : Row :=
  { category := "Geography", topic := "Capital of Namibia",
    content := "The capital is Windhoek.", keywords := "windhoek,capital" }

/-- A corpus oracle that finds `row_capital` only for the query
`"capital"`. -/
def db_capital : String → ℕ → List Row :=
  fun q _ => if q = "capital" then [row_capital] else []

/-- A corpus oracle that finds `row_capital` only for the query `"main"`
(so `"main city"` is only reachable through the synonym expansion that
shortens it to its first word). -/
def db_main : String → ℕ → List Row :=
  fun q _ => if q = "main" then [row_capital] else []

/-- A fuzzy matcher that reports a perfect partial-ratio, as
`rapidfuzz.fuzz.partial_ratio` does whenever one string contains the
other. -/
def pr_const100 : String → String → ℚ := fun _ _ => 100

/-- A fuzzy matcher reporting a weak match just above the default
threshold. -/
def pr_const61 : String → String → ℚ := fun _ _ => 61

/-- Eight distinct corpus rows, to exercise the result-count cap. -/
def rows_eight : List Row :=
  [ { category := "General", topic := "T1", content := "C1", keywords := "" },
    { category := "General", topic := "T2", content := "C2", keywords := "" },
    { category := "General", topic := "T3", content := "C3", keywords := "" },
    { category := "General", topic := "T4", content := "C4", keywords := "" },
    { category := "General", topic := "T5", content := "C5", keywords := "" },
    { category := "General", topic := "T6", content := "C6", keywords := "" },
    { category := "General", topic := "T7", content := "C7", keywords := "" },
    { category := "General", topic := "T8", content := "C8", keywords := "" } ]

/-- A corpus oracle returning the eight rows for every query. -/
def db_eight : String → ℕ → List Row := fun _ _ => rows_eight

/-- The direct result for query `"capital"` against `db_capital` with a
perfect fuzzy match and no user-interest boost. -/
def result_capital_direct : SearchResult :=
  { category := "Geography", question := "Capital of Namibia",
    answer := "The capital is Windhoek.", keywords := ["windhoek", "capital"],
    score := 100, matched_query := "capital", is_personal := false }

/-- The interest-boosted direct result for query `"capital"` against
`db_capital` for a user interested in `"geography"`. -/
def result_capital_boosted : SearchResult :=
  { category := "Geography", question := "Capital of Namibia",
    answer := "The capital is Windhoek.", keywords := ["windhoek", "capital"],
    score := 130, matched_query := "capital", is_personal := false }

/-- The synonym-fallback result for query `"main city"` against `db_main`. -/
def result_main_syn : SearchResult :=
  { category := "Geography", question := "Capital of Namibia",
    answer := "The capital is Windhoek.", keywords := ["windhoek", "capital"],
    score := 85, matched_query := "main", is_personal := false }

-- =========================================================
-- Theorems
-- =========================================================

theorem insert_desc_perm {α : Type} (key : α → ℚ) (x : α) (l : List α) :
    (insert_desc key x l).Perm (x :: l) := by
  induction l with
  | nil => simp [insert_desc]
  | cons y ys ih =>
    simp only [insert_desc]
    split
    · exact List.Perm.refl _
    · exact ((ih.cons y).trans (List.Perm.swap x y ys))

theorem sort_desc_aux_perm {α : Type} (key : α → ℚ) (l acc : List α) :
    (l.foldl (fun acc x => insert_desc key x acc) acc).Perm (acc ++ l) := by
  induction l generalizing acc with
  | nil => simp
  | cons x xs ih =>
    simp only [List.foldl_cons]
    refine (ih (insert_desc key x acc)).trans ?_
    have h1 : (insert_desc key x acc ++ xs).Perm ((x :: acc) ++ xs) :=
      (insert_desc_perm key x acc).append_right xs
    refine h1.trans ?_
    simp only [List.cons_append]
    exact (List.perm_middle).symm

theorem sort_desc_perm {α : Type} (key : α → ℚ) (l : List α) :
    (sort_desc key l).Perm l := by
  simpa using sort_desc_aux_perm key l []

theorem sorted_insert_desc {α : Type} (key : α → ℚ) (x : α) (l : List α)
    (h : SortedDesc key l) : SortedDesc key (insert_desc key x l) := by
  induction l with
  | nil => simp [insert_desc, SortedDesc]
  | cons y ys ih =>
    simp only [SortedDesc, List.pairwise_cons] at h
    simp only [insert_desc]
    split
    · rename_i hxy
      refine List.Pairwise.cons ?_ (List.Pairwise.cons h.1 h.2)
      intro z hz
      rcases List.mem_cons.mp hz with rfl | hz
      · exact le_of_lt hxy
      · exact le_trans (h.1 z hz) (le_of_lt hxy)
    · rename_i hxy
      push_neg at hxy
      refine List.Pairwise.cons ?_ (ih h.2)
      intro z hz
      have hz' := (insert_desc_perm key x ys).mem_iff.mp hz
      rcases List.mem_cons.mp hz' with rfl | hz'
      · exact hxy
      · exact h.1 z hz'

theorem sorted_sort_desc_aux {α : Type} (key : α → ℚ) (l acc : List α)
    (h : SortedDesc key acc) :
    SortedDesc key (l.foldl (fun acc x => insert_desc key x acc) acc) := by
  induction l generalizing acc with
  | nil => simpa using h
  | cons x xs ih =>
    simp only [List.foldl_cons]
    exact ih _ (sorted_insert_desc key x acc h)

theorem sorted_sort_desc {α : Type} (key : α → ℚ) (l : List α) :
    SortedDesc key (sort_desc key l) :=
  sorted_sort_desc_aux key l [] (by simp [SortedDesc])

theorem sorted_head_max {α : Type} (key : α → ℚ) (x : α) (l : List α)
    (h : SortedDesc key (x :: l)) : ∀ a ∈ x :: l, key a ≤ key x := by
  intro a ha
  rcases List.mem_cons.mp ha with rfl | ha
  · exact le_refl _
  · exact (List.pairwise_cons.mp h).1 a ha

-- =========================================================
-- Invariants of the intelligent_search folds
-- =========================================================

theorem foldl_invariant {α β : Type} (P : β → Prop) (f : β → α → β)
    (l : List α) (b : β) (hb : P b) (hf : ∀ b a, P b → P (f b a)) :
    P (l.foldl f b) := by
  induction l generalizing b with
  | nil => simpa using hb
  | cons x xs ih => exact ih _ (hf b x hb)

/-- Elements of the final truncated, sorted output all come from the
accumulated result list. -/
theorem mem_of_mem_output {x : SearchResult} {l : List SearchResult} {n : ℕ}
    (h : x ∈ (sort_desc (fun y => y.score) l).take n) : x ∈ l :=
  (sort_desc_perm (fun y => y.score) l).mem_iff.mp
    ((List.take_sublist n _).subset h)

theorem process_row_resultOk (pr : String → String → ℚ)
    (interests : Option (String → Bool)) (threshold : ℚ) (clean_query : String)
    (st : SearchState) (r : Row)
    (h : ∀ x ∈ st.enhanced_results, ResultOk threshold clean_query x) :
    ∀ x ∈ (process_row pr interests threshold clean_query st r).enhanced_results,
      ResultOk threshold clean_query x := by
  intro x hx
  unfold process_row at hx
  split at hx
  · exact h x hx
  · dsimp only at hx
    split at hx
    · rename_i hbest
      simp only [List.mem_append, List.mem_singleton] at hx
      rcases hx with hx | rfl
      · exact h x hx
      · exact Or.inl ⟨hbest, rfl⟩
    · exact h x hx

theorem process_expanded_resultOk (dbSearch : String → ℕ → List Row)
    (threshold : ℚ) (clean_query : String) (st : SearchState)
    (expanded_query : String)
    (h : ∀ x ∈ st.enhanced_results, ResultOk threshold clean_query x) :
    ∀ x ∈ (process_expanded dbSearch clean_query st expanded_query).enhanced_results,
      ResultOk threshold clean_query x := by
  intro x hx
  unfold process_expanded at hx
  split at hx
  · rename_i hne
    revert hx
    refine foldl_invariant
      (fun st => ∀ x ∈ st.enhanced_results, ResultOk threshold clean_query x) _ _ st h ?_ x
    intro st' r hst' y hy
    dsimp only at hy
    split at hy
    · exact hst' y hy
    · simp only [List.mem_append, List.mem_singleton] at hy
      rcases hy with hy | rfl
      · exact hst' y hy
      · refine Or.inr ⟨?_, hne⟩
        simp [hne]
  · exact h x hx

/-- Every result returned by `intelligent_search` is either the personal
short-circuit result (score 100, `matched_query` = the clean query), or a
direct result scoring above the threshold with `matched_query` = the clean
query, or a synonym-fallback result with score exactly 85 and a different
`matched_query`. -/
theorem intelligent_search_resultOk (dbSearch : String → ℕ → List Row)
    (pr : String → String → ℚ) (interests : Option (String → Bool))
    (query : String) (threshold : ℚ) :
    ∀ x ∈ intelligent_search dbSearch pr interests query threshold,
      (x.score = 100 ∧ x.matched_query = py_lower (py_trim query) ∧ x.is_personal = true) ∨
      ResultOk threshold (py_lower (py_trim query)) x := by
  intro x hx
  unfold intelligent_search at hx
  split at hx
  · simp at hx
  · dsimp only at hx
    revert hx
    split
    · intro hx
      simp only [List.mem_singleton] at hx
      subst hx
      exact Or.inl ⟨rfl, rfl, rfl⟩
    · intro hx
      refine Or.inr ?_
      have hx' := mem_of_mem_output hx
      revert hx'
      split
      · refine foldl_invariant
          (fun st : SearchState => ∀ y ∈ st.enhanced_results, ResultOk threshold (py_lower (py_trim query)) y)
          _ _ _ ?_ ?_ x
        · refine foldl_invariant
            (fun st : SearchState => ∀ y ∈ st.enhanced_results, ResultOk threshold (py_lower (py_trim query)) y)
            _ _ _ ?_ ?_
          · intro y hy
            simp at hy
          · intro st r hst
            exact process_row_resultOk pr interests threshold _ st r hst
        · intro st eq hst
          exact process_expanded_resultOk dbSearch threshold _ st eq hst
      · refine foldl_invariant
          (fun st : SearchState => ∀ y ∈ st.enhanced_results, ResultOk threshold (py_lower (py_trim query)) y)
          _ _ _ ?_ ?_ x
        · intro y hy
          simp at hy
        · intro st r hst
          exact process_row_resultOk pr interests threshold _ st r hst

theorem seenInv_append (st : SearchState) (res : SearchResult) (lb : Option ℚ)
    (hnotseen : res.answer ∉ st.seen_content) (h : SeenInv st) :
    SeenInv ⟨st.enhanced_results ++ [res], st.seen_content ++ [res.answer], lb⟩ := by
  obtain ⟨hnodup, hseen⟩ := h
  constructor
  · simp only [List.map_append, List.map_cons, List.map_nil, List.nodup_append]
    refine ⟨hnodup, by simp, ?_⟩
    intro a ha
    simp only [List.mem_singleton]
    intro hcontra
    subst hcontra
    obtain ⟨x, hx, hxa⟩ := List.mem_map.mp ha
    exact hnotseen (hxa ▸ hseen x hx)
  · intro x hx
    simp only [List.mem_append, List.mem_singleton] at hx
    rcases hx with hx | rfl
    · exact List.mem_append_left _ (hseen x hx)
    · simp

theorem process_row_seenInv (pr : String → String → ℚ)
    (interests : Option (String → Bool)) (threshold : ℚ) (clean_query : String)
    (st : SearchState) (r : Row) (h : SeenInv st) :
    SeenInv (process_row pr interests threshold clean_query st r) := by
  unfold process_row
  split
  · exact h
  · rename_i hseen
    dsimp only
    split
    · exact seenInv_append st _ _ (fun hmem => hseen (List.elem_iff.mpr hmem)) h
    · exact ⟨h.1, h.2⟩

theorem process_expanded_seenInv (dbSearch : String → ℕ → List Row)
    (clean_query : String) (st : SearchState) (expanded_query : String)
    (h : SeenInv st) :
    SeenInv (process_expanded dbSearch clean_query st expanded_query) := by
  unfold process_expanded
  split
  · refine foldl_invariant SeenInv _ _ st h ?_
    intro st' r hst'
    dsimp only
    split
    · exact hst'
    · rename_i hseen
      exact seenInv_append st' _ _ (fun hmem => hseen (List.elem_iff.mpr hmem)) hst'
  · exact h

/-- The truncated, sorted output of a state satisfying the dedup invariant
has pairwise distinct contents. -/
theorem output_nodup (st : SearchState) (h : SeenInv st) :
    ((sort_desc (fun x => x.score) st.enhanced_results).take 7).map
      (fun x => x.answer) |>.Nodup := by
  rw [List.map_take]
  refine List.Nodup.sublist (List.take_sublist 7 _) ?_
  have hperm : ((sort_desc (fun x => x.score) st.enhanced_results).map
      (fun x => x.answer)).Perm (st.enhanced_results.map (fun x => x.answer)) :=
    (sort_desc_perm (fun x => x.score) st.enhanced_results).map _
  exact hperm.nodup_iff.mpr h.1

/-- C6 (amended): `intelligent_search` returns at most 7 results. -/
theorem intelligent_search_length_le (dbSearch : String → ℕ → List Row)
    (pr : String → String → ℚ) (interests : Option (String → Bool))
    (query : String) (threshold : ℚ) :
    (intelligent_search dbSearch pr interests query threshold).length ≤ 7 := by
  unfold intelligent_search
  split
  · simp
  · dsimp only
    split
    · simp
    · exact List.length_take_le 7 _

/-- C7 helper: the returned list is sorted by score in non-increasing
order. -/
theorem intelligent_search_sorted (dbSearch : String → ℕ → List Row)
    (pr : String → String → ℚ) (interests : Option (String → Bool))
    (query : String) (threshold : ℚ) :
    (intelligent_search dbSearch pr interests query threshold).Pairwise
      (fun a b => b.score ≤ a.score) := by
  unfold intelligent_search
  split
  · simp
  · dsimp only
    split
    · simp
    · exact List.Pairwise.sublist (List.take_sublist 7 _)
        (sorted_sort_desc (fun x : SearchResult => x.score) _)

/-- C8 helper: the contents of the returned results are pairwise
distinct. -/
theorem intelligent_search_nodup (dbSearch : String → ℕ → List Row)
    (pr : String → String → ℚ) (interests : Option (String → Bool))
    (query : String) (threshold : ℚ) :
    ((intelligent_search dbSearch pr interests query threshold).map
      (fun x => x.answer)).Nodup := by
  unfold intelligent_search
  split
  · simp
  · dsimp only
    split
    · simp
    · apply output_nodup
      have hbase : SeenInv ((dbSearch (py_lower (py_trim query)) 15).foldl
          (process_row pr interests threshold (py_lower (py_trim query)))
          { enhanced_results := [], seen_content := [], last_best := none }) := by
        refine foldl_invariant SeenInv _ _ _ ⟨by simp, by simp⟩ ?_
        intro st r h
        exact process_row_seenInv pr interests threshold _ st r h
      split
      · refine foldl_invariant SeenInv _ _ _ hbase ?_
        intro st eq h
        exact process_expanded_seenInv dbSearch _ st eq h
      · exact hbase

-- =========================================================
-- Score bounds (claim C2)
-- =========================================================

/-- The keyword component score always lies in [0, 100]. -/
theorem keyword_score_bounds (clean_query : String) (keywords : List String) :
    0 ≤ keyword_score clean_query keywords ∧
      keyword_score clean_query keywords ≤ 100 := by
  unfold keyword_score
  split
  · dsimp only
    split
    · rename_i hcommon
      set qw := (word_tokens (py_lower clean_query)).toFinset with hqw
      set kw := ((keywords.filter (fun k => py_trim k ≠ "")).map
        (fun k => py_lower (py_trim k))).toFinset with hkw
      have hsub : qw ∩ kw ⊆ kw := Finset.inter_subset_right
      have hcard : (qw ∩ kw).card ≤ kw.card := Finset.card_le_card hsub
      have hne : (qw ∩ kw).Nonempty := Finset.nonempty_iff_ne_empty.mpr hcommon
      have hkwne : kw.Nonempty := ⟨hne.choose, hsub hne.choose_spec⟩
      have hkwpos : 0 < kw.card := Finset.card_pos.mpr hkwne
      have hkposQ : (0 : ℚ) < (kw.card : ℚ) := by exact_mod_cast hkwpos
      have hmaxpos : (0 : ℚ) < max (qw.card : ℚ) (kw.card : ℚ) :=
        lt_of_lt_of_le hkposQ (le_max_right _ _)
      constructor
      · apply mul_nonneg _ (by norm_num)
        exact div_nonneg (Nat.cast_nonneg _) (le_of_lt hmaxpos)
      · have hcardQ : ((qw ∩ kw).card : ℚ) ≤ (kw.card : ℚ) := by
          exact_mod_cast hcard
        have hle : ((qw ∩ kw).card : ℚ) ≤ max (qw.card : ℚ) (kw.card : ℚ) :=
          le_trans hcardQ (le_max_right _ _)
        have hdiv : ((qw ∩ kw).card : ℚ) / max (qw.card : ℚ) (kw.card : ℚ) ≤ 1 := by
          rw [div_le_one hmaxpos]
          exact hle
        calc ((qw ∩ kw).card : ℚ) / max (qw.card : ℚ) (kw.card : ℚ) * 100
            ≤ 1 * 100 := by
              apply mul_le_mul_of_nonneg_right hdiv (by norm_num)
          _ = 100 := by norm_num
    · norm_num
  · norm_num

/-- The context weight is either 1 or 1.3. -/
theorem context_weight_cases (interests : Option (String → Bool))
    (category : String) :
    context_weight interests category = 1 ∨
      context_weight interests category = 13 / 10 := by
  unfold context_weight
  cases interests with
  | none => exact Or.inl rfl
  | some f =>
    dsimp only
    split
    · exact Or.inr rfl
    · exact Or.inl rfl

theorem process_row_scoreInv (pr : String → String → ℚ)
    (interests : Option (String → Bool)) (threshold : ℚ) (clean_query : String)
    (st : SearchState) (r : Row)
    (hpr : ∀ a b, 0 ≤ pr a b ∧ pr a b ≤ 100) (h : ScoreInv st) :
    ScoreInv (process_row pr interests threshold clean_query st r) := by
  intro x hx
  unfold process_row at hx
  split at hx
  · exact h x hx
  · dsimp only at hx
    split at hx
    · simp only [List.mem_append, List.mem_singleton] at hx
      rcases hx with hx | rfl
      · exact h x hx
      · dsimp only
        obtain ⟨ht0, ht1⟩ := hpr clean_query (py_lower r.topic)
        obtain ⟨hc0, hc1⟩ := hpr clean_query (py_lower r.content)
        obtain ⟨hk0, hk1⟩ := keyword_score_bounds clean_query (row_keywords r)
        have hmax0 : 0 ≤ max (max (pr clean_query (py_lower r.topic))
            (pr clean_query (py_lower r.content))) (keyword_score clean_query (row_keywords r)) :=
          le_trans ht0 (le_trans (le_max_left _ _) (le_max_left _ _))
        have hmax1 : max (max (pr clean_query (py_lower r.topic))
            (pr clean_query (py_lower r.content))) (keyword_score clean_query (row_keywords r)) ≤ 100 :=
          max_le (max_le ht1 hc1) hk1
        rcases context_weight_cases interests r.category with hcw | hcw <;>
          rw [hcw] <;> constructor <;> nlinarith
    · exact h x hx

theorem process_expanded_scoreInv (dbSearch : String → ℕ → List Row)
    (clean_query : String) (st : SearchState) (expanded_query : String)
    (h : ScoreInv st) :
    ScoreInv (process_expanded dbSearch clean_query st expanded_query) := by
  unfold process_expanded
  split
  · rename_i hne
    refine foldl_invariant ScoreInv _ _ st h ?_
    intro st' r hst' x hx
    dsimp only at hx
    split at hx
    · exact hst' x hx
    · simp only [List.mem_append, List.mem_singleton] at hx
      rcases hx with hx | rfl
      · exact hst' x hx
      · simp [hne]
        norm_num
  · exact h

/-- C2 helper: under the real range of `partial_ratio` (values in
[0, 100]), every returned score lies in [0, 130]. -/
theorem intelligent_search_score_bounds (dbSearch : String → ℕ → List Row)
    (pr : String → String → ℚ) (interests : Option (String → Bool))
    (query : String) (threshold : ℚ)
    (hpr : ∀ a b, 0 ≤ pr a b ∧ pr a b ≤ 100) :
    ∀ x ∈ intelligent_search dbSearch pr interests query threshold,
      0 ≤ x.score ∧ x.score ≤ 130 := by
  intro x hx
  unfold intelligent_search at hx
  split at hx
  · simp at hx
  · dsimp only at hx
    revert hx
    split
    · intro hx
      simp only [List.mem_singleton] at hx
      subst hx
      norm_num
    · intro hx
      have hx' := mem_of_mem_output hx
      have hbase : ScoreInv ((dbSearch (py_lower (py_trim query)) 15).foldl
          (process_row pr interests threshold (py_lower (py_trim query)))
          { enhanced_results := [], seen_content := [], last_best := none }) := by
        refine foldl_invariant ScoreInv _ _ _ (by intro y hy; simp at hy) ?_
        intro st r h
        exact process_row_scoreInv pr interests threshold _ st r hpr h
      revert hx'
      split
      · refine foldl_invariant ScoreInv _ _ _ hbase ?_ x
        intro st eq h
        exact process_expanded_scoreInv dbSearch _ st eq h
      · exact hbase x

-- =========================================================
-- Candidate-set characterizations (claims C1, C3, C9)
-- =========================================================

theorem mem_ite_singleton {α : Type} (a b : α) (c : Prop) [Decidable c] :
    a ∈ (if c then [b] else []) ↔ c ∧ a = b := by
  split <;> simp_all

/-- The conversation-starter candidate is in the candidate list iff
supervision mode is on, the chat is quiet (threshold 30 minutes) and the
50% coin draw succeeds. -/
theorem starter_mem_iff (message : String) (supervision_mode : Bool)
    (last_activity : Option ℚ) (now coin : ℚ) :
    ("conversation_starter", (60 : ℚ)) ∈
        response_types message supervision_mode last_activity now coin ↔
      supervision_mode = true ∧ is_chat_quiet last_activity now 30 = true ∧
        coin < 1 / 2 := by
  simp only [response_types, List.mem_append, mem_ite_singleton, Prod.mk.injEq,
    Bool.and_eq_true, decide_eq_true_eq]
  norm_num
  tauto

/-- A message containing a bot-mention token always contributes the
`direct_mention` candidate with weight 95. -/
theorem mention_mem (message : String) (supervision_mode : Bool)
    (last_activity : Option ℚ) (now coin : ℚ)
    (h : bot_mentions.any (fun mention => str_contains message mention) = true) :
    ("direct_mention", (95 : ℚ)) ∈
      response_types message supervision_mode last_activity now coin := by
  unfold response_types
  have hB : ("direct_mention", (95 : ℚ)) ∈
      (if bot_mentions.any (fun mention => str_contains message mention) then
        [(("direct_mention" : String), (95 : ℚ))] else []) := by
    rw [if_pos h]
    exact List.mem_singleton_self _
  exact List.mem_append_left _ (List.mem_append_left _ (List.mem_append_left _
    (List.mem_append_left _ (List.mem_append_left _ (List.mem_append_left _
      (List.mem_append_left _ (List.mem_append_right _ hB)))))))

/-- If the candidate list contains a weight-95 candidate and the engagement
of the user is high, `decide_response` responds for every draw `r < 1`: the
adjusted probability of the top candidate is at least 0.95 × 1.2 > 1. -/
theorem decide_response_isSome_of_mention (message : String)
    (last_activity : Option ℚ) (now : ℚ) (supervision_mode : Bool) (coin r : ℚ)
    (hmem : ("direct_mention", (95 : ℚ)) ∈
      response_types message supervision_mode last_activity now coin)
    (hr : r < 1) :
    (decide_response message .high last_activity now supervision_mode coin r).isSome
      = true := by
  unfold decide_response
  have hmem' : ("direct_mention", (95 : ℚ)) ∈
      sort_desc (fun x => x.2)
        (response_types message supervision_mode last_activity now coin) :=
    (sort_desc_perm _ _).mem_iff.mpr hmem
  cases hs : sort_desc (fun x => x.2)
      (response_types message supervision_mode last_activity now coin) with
  | nil =>
    rw [hs] at hmem'
    simp at hmem'
  | cons top rest =>
    rw [hs] at hmem'
    have hsorted := sorted_sort_desc (fun x : String × ℚ => x.2)
      (response_types message supervision_mode last_activity now coin)
    rw [hs] at hsorted
    have htop : (95 : ℚ) ≤ top.2 :=
      sorted_head_max (fun x : String × ℚ => x.2) top rest hsorted _ hmem'
    dsimp only
    rw [if_pos]
    · rfl
    · constructor
      · linarith
      · have hfac : engagement_factor .high = 12 / 10 := rfl
        rw [hfac]
        nlinarith

/-- For the empty message no text rule matches, so unless the
conversation-starter path triggers, `decide_response` returns no
response. -/
theorem decide_response_empty (engagement : Engagement)
    (last_activity : Option ℚ) (now : ℚ) (supervision_mode : Bool) (coin r : ℚ)
    (h : ¬(supervision_mode = true ∧ is_chat_quiet last_activity now 30 = true ∧
      coin < 1 / 2)) :
    decide_response "" engagement last_activity now supervision_mode coin r
      = none := by
  have hb : (supervision_mode && is_chat_quiet last_activity now 30 &&
      decide (coin < 1 / 2)) = false := by
    cases hcase : (supervision_mode && is_chat_quiet last_activity now 30 &&
        decide (coin < 1 / 2)) with
    | false => rfl
    | true =>
      exfalso
      apply h
      simpa [Bool.and_eq_true, decide_eq_true_eq, and_assoc] using hcase
  have hrt : response_types "" supervision_mode last_activity now coin = [] := by
    unfold response_types
    rw [if_neg (by decide), if_neg (by decide), if_neg (by decide),
      if_neg (by decide), if_neg (by decide), if_neg (by decide),
      if_neg (by decide), if_neg (by decide), if_neg (by rw [hb]; exact Bool.false_ne_true)]
    simp
  unfold decide_response
  rw [hrt]
  rfl

-- =========================================================
-- Claim C1
-- =========================================================

/-- C1 (amended): a message containing a direct bot-mention token always
contributes the `direct_mention` candidate — but with weight 95, not 100 —
and `decide_response` is guaranteed to respond for every random draw
`r < 1` only when the engagement level of the user is high (0.95 × 1.2 > 1);
for medium or low engagement the response fires only when
`r < 0.95 × engagement_factor`. -/
theorem C1_mention_weight95_fires_when_high (message : String)
    (la : Option ℚ) (now : ℚ) (sm : Bool) (coin r : ℚ)
    (hmention : bot_mentions.any (fun mention => str_contains message mention) = true)
    (hr : r < 1) :
    ("direct_mention", (95 : ℚ)) ∈ response_types message sm la now coin ∧
      (decide_response message .high la now sm coin r).isSome = true :=
  ⟨mention_mem message sm la now coin hmention,
   decide_response_isSome_of_mention message la now sm coin r
     (mention_mem message sm la now coin hmention) hr⟩

/-- C1 witness: the mention `"@namibiabot"` at draw 1/2 with high
engagement. -/
theorem C1_witness :
    ("direct_mention", (95 : ℚ)) ∈ response_types "@namibiabot" false none 0 0 ∧
      (decide_response "@namibiabot" .high none 0 false 0 (1 / 2)).isSome = true :=
  C1_mention_weight95_fires_when_high "@namibiabot" none 0 false 0 (1 / 2)
    (by decide) (by norm_num)

/-- C1 counterexample: the claim as stated is false — the message
`"@namibiabot"` contains a direct bot-mention token and the draw
96/100 lies in [0, 1), yet `decide_response` (medium engagement, so
engagement factor 1) returns no response, because the mention weight is
95, not 100: 96/100 ≥ 95/100. -/
theorem C1_counterexample :
    bot_mentions.any (fun mention => str_contains "@namibiabot" mention) = true ∧
      (0 : ℚ) ≤ 96 / 100 ∧ (96 : ℚ) / 100 < 1 ∧
      decide_response "@namibiabot" .medium (some 0) 0 true 0 (96 / 100) = none :=
  ⟨by decide, by norm_num, by norm_num, by decide⟩

-- =========================================================
-- Claim C2
-- =========================================================

/-- C2 (amended): with `partial_ratio` values in [0, 100], every score
returned by `intelligent_search` lies in [0, 130] — not [0, 100]: the
user-interest context weight 1.3 can push a perfect component score to
130. -/
theorem C2_score_bounds (dbSearch : String → ℕ → List Row)
    (pr : String → String → ℚ) (interests : Option (String → Bool))
    (query : String) (threshold : ℚ)
    (hpr : ∀ a b, 0 ≤ pr a b ∧ pr a b ≤ 100) (x : SearchResult)
    (hx : x ∈ intelligent_search dbSearch pr interests query threshold) :
    0 ≤ x.score ∧ x.score ≤ 130 :=
  intelligent_search_score_bounds dbSearch pr interests query threshold hpr x hx

/-- C2 witness: the interest-boosted result for `"capital"` scores 130,
inside the amended bounds. -/
theorem C2_witness :
    0 ≤ result_capital_boosted.score ∧ result_capital_boosted.score ≤ 130 :=
  C2_score_bounds db_capital pr_const100 (some (fun c => c == "geography"))
    "capital" 60 (by intro a b; constructor <;> norm_num [pr_const100])
    result_capital_boosted (by decide)

/-- C2 counterexample: the claim as stated is false — for a user whose
interest dict contains `"geography"`, the query `"capital"` yields a
result scoring 130 > 100 (perfect fuzzy match 100 × context weight 1.3). -/
theorem C2_counterexample :
    (intelligent_search db_capital pr_const100 (some (fun c => c == "geography"))
        "capital" 60).map (fun x => x.score) = [130] ∧
      ¬((130 : ℚ) ≤ 100) :=
  ⟨by decide, by norm_num⟩

-- =========================================================
-- Claim C3
-- =========================================================

/-- C3 (amended): during `analyze_message` the conversation-starter
candidate is never present, because `analyze_message` records the chat's
activity at `now` before calling `decide_response`, making the elapsed
time zero; and in the candidate set of `decide_response` the candidate is
present iff supervision mode is on, the chat is quiet per `is_chat_quiet`
(threshold 30 minutes, never-seen chats quiet), and the 50% random coin
draw succeeds — so presence is not equivalent to quietness alone. -/
theorem C3_starter_never_in_analyze_and_gated :
    (∀ (message : String) (sm : Bool) (la : Option ℚ) (now coin : ℚ),
      ("conversation_starter", (60 : ℚ)) ∉
        analyze_candidates message sm la now coin) ∧
    (∀ (message : String) (sm : Bool) (la : Option ℚ) (now coin : ℚ),
      (("conversation_starter", (60 : ℚ)) ∈
          response_types message sm la now coin) ↔
        (sm = true ∧ is_chat_quiet la now 30 = true ∧ coin < 1 / 2)) := by
  constructor
  · intro message sm la now coin h
    unfold analyze_candidates at h
    dsimp only at h
    obtain ⟨-, hq, -⟩ := (starter_mem_iff _ _ _ _ _).mp h
    unfold is_chat_quiet at hq
    simp only [sub_self, decide_eq_true_eq] at hq
    norm_num at hq
  · intro message sm la now coin
    exact starter_mem_iff message sm la now coin

/-- C3 witness: with supervision on, a quiet (never-seen) chat and a
succeeding coin, the standalone candidate set does contain the starter. -/
theorem C3_witness :
    ("conversation_starter", (60 : ℚ)) ∈ response_types "x" true none 0 0 :=
  (C3_starter_never_in_analyze_and_gated.2 "x" true none 0 0).mpr
    ⟨rfl, by decide, by decide⟩

/-- C3 counterexample: the claim as stated is false — for a message
processed for a never-seen chat (which the claim says must be treated as
quiet, so the candidate should be present), the candidate set examined
during processing does not contain the conversation starter, even with a
succeeding coin draw, because the activity record is refreshed first. -/
theorem C3_counterexample :
    is_chat_quiet none 0 30 = true ∧
      ("conversation_starter", (60 : ℚ)) ∉
        analyze_candidates "hello" true none 0 0 :=
  ⟨by decide, by decide⟩

-- =========================================================
-- Claim C4
-- =========================================================

/-- C4 (amended): threshold enforcement holds only for thresholds up to
85: direct results score strictly above the threshold, but
synonym-fallback results carry the fixed score 85 regardless of the
threshold, so for `threshold ≤ 85` no returned result scores below the
threshold. -/
theorem C4_threshold_lower_bound (dbSearch : String → ℕ → List Row)
    (pr : String → String → ℚ) (interests : Option (String → Bool))
    (query : String) (threshold : ℚ) (ht : threshold ≤ 85) (x : SearchResult)
    (hx : x ∈ intelligent_search dbSearch pr interests query threshold) :
    threshold ≤ x.score := by
  rcases intelligent_search_resultOk dbSearch pr interests query threshold x hx with
    ⟨h100, -, -⟩ | ⟨hgt, -⟩ | ⟨h85, -⟩
  · rw [h100]; linarith
  · linarith
  · rw [h85]; exact ht

/-- C4 witness: the direct result for `"capital"` at the default
threshold 60 scores at least 60. -/
theorem C4_witness : (60 : ℚ) ≤ result_capital_direct.score :=
  C4_threshold_lower_bound db_capital pr_const100 none "capital" 60
    (by norm_num) result_capital_direct (by decide)

/-- C4 counterexample: the claim as stated is false — at threshold 90 the
query `"main city"` returns a synonym-fallback result scoring 85 < 90. -/
theorem C4_counterexample :
    (intelligent_search db_main pr_const100 none "main city" 90).map
        (fun x => x.score) = [85] ∧
      (85 : ℚ) < 90 :=
  ⟨by decide, by norm_num⟩

-- =========================================================
-- Claim C5
-- =========================================================

/-- C5 (amended): every result produced by the synonym-expansion fallback
(identified by its `matched_query` differing from the cleaned query)
carries the fixed score 85 — not ≈75 — and this is not strictly lower than
direct-match scores, which can be as low as just above the threshold. -/
theorem C5_synonym_score_is_85 (dbSearch : String → ℕ → List Row)
    (pr : String → String → ℚ) (interests : Option (String → Bool))
    (query : String) (threshold : ℚ) (x : SearchResult)
    (hx : x ∈ intelligent_search dbSearch pr interests query threshold)
    (hmq : x.matched_query ≠ py_lower (py_trim query)) :
    x.score = 85 := by
  rcases intelligent_search_resultOk dbSearch pr interests query threshold x hx with
    ⟨-, hq, -⟩ | ⟨-, hq⟩ | ⟨h85, -⟩
  · exact absurd hq hmq
  · exact absurd hq hmq
  · exact h85

/-- C5 witness: the `"main city"` fallback result (matched via the word
prefix `"main"`) scores exactly 85. -/
theorem C5_witness : result_main_syn.score = 85 :=
  C5_synonym_score_is_85 db_main pr_const100 none "main city" 60
    result_main_syn (by decide) (by decide)

/-- C5 counterexample: the claim as stated is false — the fallback result
for `"main city"` scores 85, which is neither 75 nor below 80, and a
direct match can score 61 < 85, so fallback scores are not strictly lower
than direct scores. -/
theorem C5_counterexample :
    (intelligent_search db_main pr_const100 none "main city" 60).map
        (fun x => x.score) = [85] ∧
      (intelligent_search db_capital pr_const61 none "capital" 60).map
        (fun x => x.score) = [61] ∧
      ¬((85 : ℚ) = 75) ∧ ¬((85 : ℚ) ≤ 80) ∧ ¬((85 : ℚ) < 61) :=
  ⟨by decide, by decide, by norm_num, by norm_num, by norm_num⟩

-- =========================================================
-- Claim C6
-- =========================================================

/-- C6 (amended): `intelligent_search` sorts the surviving results by
score descending and truncates — but to the top 7, not 3, and it takes no
`limit` parameter at all (the cap is the hard-coded `[:7]`). -/
theorem C6_returns_at_most_seven (dbSearch : String → ℕ → List Row)
    (pr : String → String → ℚ) (interests : Option (String → Bool))
    (query : String) (threshold : ℚ) :
    (intelligent_search dbSearch pr interests query threshold).length ≤ 7 :=
  intelligent_search_length_le dbSearch pr interests query threshold

/-- C6 counterexample: the claim as stated is false — a corpus with eight
matching rows yields seven results, more than the claimed default limit
of 3. -/
theorem C6_counterexample :
    (intelligent_search db_eight pr_const100 none "capital" 60).length = 7 ∧
      ¬((7 : ℕ) ≤ 3) :=
  ⟨by decide, by norm_num⟩

-- =========================================================
-- Claim C7
-- =========================================================

/-- C7: for every corpus oracle, fuzzy matcher, user-interest state, query
and threshold, the list returned by `intelligent_search` is ordered by
score in non-increasing order: each result's score is at least the score
of the result after it. -/
theorem C7_results_sorted_by_score (dbSearch : String → ℕ → List Row)
    (pr : String → String → ℚ) (interests : Option (String → Bool))
    (query : String) (threshold : ℚ) :
    (intelligent_search dbSearch pr interests query threshold).Pairwise
      (fun a b => b.score ≤ a.score) :=
  intelligent_search_sorted dbSearch pr interests query threshold

-- =========================================================
-- Claim C8
-- =========================================================

/-- C8: no two results in one returned list reference entries with
identical content — the `answer` fields (entry contents) are pairwise
distinct, the shared `seen_content` set deduplicating across the direct
path and all synonym expansions. -/
theorem C8_contents_pairwise_distinct (dbSearch : String → ℕ → List Row)
    (pr : String → String → ℚ) (interests : Option (String → Bool))
    (query : String) (threshold : ℚ) :
    ((intelligent_search dbSearch pr interests query threshold).map
      (fun x => x.answer)).Nodup :=
  intelligent_search_nodup dbSearch pr interests query threshold

-- =========================================================
-- Claim C9
-- =========================================================

/-- C9 (amended): an empty or whitespace-only query is a normal no-op —
`intelligent_search` returns `[]` — and `decide_response` on the empty
message returns no response whenever the conversation-starter path does
not trigger (supervision off, or chat not quiet, or the 50% coin fails);
it is not a no-op unconditionally, because a quiet chat can still trigger
the conversation starter on an empty message. -/
theorem C9_empty_input_no_op :
    (∀ (dbSearch : String → ℕ → List Row) (pr : String → String → ℚ)
       (interests : Option (String → Bool)) (query : String) (threshold : ℚ),
      py_trim query = "" →
        intelligent_search dbSearch pr interests query threshold = []) ∧
    (∀ (engagement : Engagement) (la : Option ℚ) (now : ℚ) (sm : Bool)
       (coin r : ℚ),
      ¬(sm = true ∧ is_chat_quiet la now 30 = true ∧ coin < 1 / 2) →
        decide_response "" engagement la now sm coin r = none) := by
  constructor
  · intro dbSearch pr interests query threshold h
    unfold intelligent_search
    rw [if_pos h]
  · intro engagement la now sm coin r h
    exact decide_response_empty engagement la now sm coin r h

/-- C9 witness: a whitespace-only query returns `[]`, and the empty
message in a non-quiet chat draws no response. -/
theorem C9_witness :
    intelligent_search db_capital pr_const100 none "   " 60 = [] ∧
      decide_response "" .medium (some 0) 0 true 0 (1 / 2) = none :=
  ⟨C9_empty_input_no_op.1 db_capital pr_const100 none "   " 60 (by decide),
   C9_empty_input_no_op.2 .medium (some 0) 0 true 0 (1 / 2)
     (fun h => absurd h.2.1 (by decide))⟩

/-- C9 counterexample: the claim as stated is false — for a never-seen
(hence quiet) chat with supervision on, a succeeding coin (0.3 < 0.5) and
draw 0.1, `decide_response` on the empty message returns the conversation
starter rather than no response. -/
theorem C9_counterexample :
    decide_response "" .medium none 0 true (3 / 10) (1 / 10) =
      some "conversation_starter" := by
  decide

-- =========================================================
-- Claim C10
-- =========================================================

/-- C10: whenever the cleaned query matches one of the fixed
personal-question patterns, `intelligent_search` short-circuits and
returns exactly one result — score 100, category `"Personal"`,
`is_personal = true` — identical for every corpus oracle, fuzzy matcher
and user-interest state, i.e. without consulting the corpus, so a
personal result is never mixed with or outranked by corpus results. -/
theorem C10_personal_short_circuit (dbSearch : String → ℕ → List Row)
    (pr : String → String → ℚ) (interests : Option (String → Bool))
    (query : String) (threshold : ℚ) (resp : String)
    (hpq : check_personal_questions (py_lower (py_trim query)) = some resp) :
    intelligent_search dbSearch pr interests query threshold =
      [{ category := "Personal", question := "About Eva Geises",
         answer := resp, keywords := ["eva", "geises", "name", "supervisor"],
         score := 100, matched_query := py_lower (py_trim query),
         is_personal := true }] := by
  have hq : ¬(py_trim query = "") := by
    intro h0
    rw [h0] at hpq
    have hnone : check_personal_questions (py_lower "") = none := by decide
    rw [hnone] at hpq
    exact Option.noConfusion hpq
  unfold intelligent_search
  rw [if_neg hq]
  dsimp only
  split
  · rename_i val heq
    rw [hpq] at heq
    obtain rfl := Option.some.inj heq
    rfl
  · rename_i heq
    rw [hpq] at heq
    exact Option.noConfusion heq

/-- C10 witness: the query `"who are you"` produces exactly the single
personal result with score 100, against a concrete corpus oracle. -/
theorem C10_witness :
    check_personal_questions (py_lower (py_trim "who are you")) =
        some personal_identity_response ∧
      intelligent_search db_capital pr_const100 none "who are you" 60 =
        [{ category := "Personal", question := "About Eva Geises",
           answer := personal_identity_response,
           keywords := ["eva", "geises", "name", "supervisor"], score := 100,
           matched_query := py_lower (py_trim "who are you"),
           is_personal := true }] :=
  ⟨by decide, C10_personal_short_circuit db_capital pr_const100 none
      "who are you" 60 personal_identity_response (by decide)⟩
